import Mathlib

/-!
Verification of the Aventurine League Tools codec layer.

This file gives a shallow embedding, in Lean 4, of the codec routines of the
repository (quantized-quaternion decoding, DXT1/DXT5 block decoding, the
DDS-to-TEX pixel-mask remap, SKL joint-name offset resolution, SKN index
filtering and writer-side limits, and the ANM header arithmetic), together
with theorems settling the specification claims about those routines.

Machine integers are modelled as `Nat` (all the Python values involved are
non-negative and unbounded until masked); byte buffers are `List Nat` whose
entries are below 256; Python floats are idealized as exact `Rat`/`Real`
arithmetic; `math.sqrt` is `Real.sqrt`; Python exceptions are `Except`
errors.
-/

namespace Aventurine

/-- Little-endian value of a byte list: first byte is least significant,
matching `struct.unpack` with formats `<H`, `<I`, `<Q`. -/
def leBytes : List ℕ → ℕ
  | [] => 0
  | b :: bs => b + 256 * leBytes bs

/-- Unsigned little-endian field of `n` bytes at byte offset `off`,
the meaning of `struct.unpack_from` on a byte buffer. -/
def readUIntLE (buf : List ℕ) (off n : ℕ) : ℕ :=
  leBytes ((buf.drop off).take n)

/-- Signed 32-bit little-endian field at byte offset `off`: the unsigned
value reinterpreted in two's complement, the meaning of `struct.unpack`
with format `<i`. -/
def readI32LE (buf : List ℕ) (off : ℕ) : ℤ :=
  let u := readUIntLE buf off 4
  if u < 2 ^ 31 then (u : ℤ) else (u : ℤ) - 2 ^ 32

/-- Two's-complement little-endian encoding of a signed 32-bit value, the
meaning of `struct.pack` with format `<i`. -/
def i32Bytes (v : ℤ) : List ℕ :=
  let u := (v % 2 ^ 32).toNat
  [u % 256, u / 256 % 256, u / 256 ^ 2 % 256, u / 256 ^ 3 % 256]

/-- Python 3 `round` on an exact rational, returning an integer: round half
to even (banker's rounding). -/
def pyRound (q : ℚ) : ℤ :=
  let f := ⌊q⌋
  let frac := q - f
  if frac < 1 / 2 then f
  else if 1 / 2 < frac then f + 1
  else if f % 2 = 0 then f else f + 1

/-! ### BlockCodec: DXT1 / DXT5 decoding (`LtMAO/Ritoddstex.py`) -/

/-- Decoded pixel: (red, green, blue, alpha), each a byte value. -/
abbrev Pixel := ℕ × ℕ × ℕ × ℕ

/-- Expansion of one packed 565 color to an (r, g, b) byte triple, as in
`decompress_dxt1_block`: shift each channel up then replicate its top bits
into the freed low bits (`r | r >> 5` pattern). -/
def expand565 (c : ℕ) : ℕ × ℕ × ℕ :=
  let r := ((c >>> 11) &&& 0x1F) <<< 3
  let g := ((c >>> 5) &&& 0x3F) <<< 2
  let b := (c &&& 0x1F) <<< 3
  (r ||| (r >>> 5), g ||| (g >>> 6), b ||| (b >>> 5))

/-- Color palette built by `decompress_dxt1_block` (lines 242-251) from the
two packed 565 endpoint values: endpoints, then either the two 1/3-blends
(4-color mode, `c0 > c1`) or the average and transparent black (1-bit-alpha
mode). -/
def dxt1Palette (c0 c1 : ℕ) : List Pixel :=
  let e0 := expand565 c0
  let e1 := expand565 c1
  let r0 := e0.1; let g0 := e0.2.1; let b0 := e0.2.2
  let r1 := e1.1; let g1 := e1.2.1; let b1 := e1.2.2
  [(r0, g0, b0, 255), (r1, g1, b1, 255)] ++
    (if c0 > c1 then
      [((2 * r0 + r1) / 3, (2 * g0 + g1) / 3, (2 * b0 + b1) / 3, 255),
       ((r0 + 2 * r1) / 3, (g0 + 2 * g1) / 3, (b0 + 2 * b1) / 3, 255)]
    else
      [((r0 + r1) / 2, (g0 + g1) / 2, (b0 + b1) / 2, 255), (0, 0, 0, 0)])

/-- Embedding of `decompress_dxt1_block`: 8-byte block to 16 RGBA pixels in
row-major raster order; blocks shorter than 8 bytes decode to 16
transparent-black pixels. -/
def decompress_dxt1_block (block_data : List ℕ) : List Pixel :=
  if block_data.length < 8 then List.replicate 16 (0, 0, 0, 0)
  else
    let c0 := readUIntLE block_data 0 2
    let c1 := readUIntLE block_data 2 2
    let bits := readUIntLE block_data 4 4
    let colors := dxt1Palette c0 c1
    (List.range 16).map fun idx => colors.getD ((bits >>> (idx * 2)) &&& 3) (0, 0, 0, 0)

/-- Alpha palette of `decompress_dxt5_block`: the two endpoint bytes
followed by six interpolated entries when `a0 > a1`, otherwise four
interpolated entries and the literals 0 and 255. -/
def dxt5AlphaPalette (a0 a1 : ℕ) : List ℕ :=
  [a0, a1] ++
    (if a0 > a1 then
      (List.range' 1 6).map fun i => ((7 - i) * a0 + i * a1) / 7
    else
      ((List.range' 1 4).map fun i => ((5 - i) * a0 + i * a1) / 5) ++ [0, 255])

/-- Embedding of `decompress_dxt5_block`: 16-byte block to 16 RGBA pixels;
blocks shorter than 16 bytes decode to 16 transparent-black pixels. -/
def decompress_dxt5_block (block_data : List ℕ) : List Pixel :=
  if block_data.length < 16 then List.replicate 16 (0, 0, 0, 0)
  else
    let a0 := block_data.getD 0 0
    let a1 := block_data.getD 1 0
    let alpha_bits := leBytes ((block_data.drop 2).take 6)
    let alphas := dxt5AlphaPalette a0 a1
    let c0 := readUIntLE block_data 8 2
    let c1 := readUIntLE block_data 10 2
    let c_bits := readUIntLE block_data 12 4
    let e0 := expand565 c0
    let e1 := expand565 c1
    let r0 := e0.1; let g0 := e0.2.1; let b0 := e0.2.2
    let r1 := e1.1; let g1 := e1.2.1; let b1 := e1.2.2
    let colors : List (ℕ × ℕ × ℕ) :=
      [(r0, g0, b0), (r1, g1, b1),
       ((2 * r0 + r1) / 3, (2 * g0 + g1) / 3, (2 * b0 + b1) / 3),
       ((r0 + 2 * r1) / 3, (g0 + 2 * g1) / 3, (b0 + 2 * b1) / 3)]
    (List.range 16).map fun idx =>
      let alpha := alphas.getD ((alpha_bits >>> (3 * idx)) &&& 7) 0
      let rgb := colors.getD ((c_bits >>> (2 * idx)) &&& 3) (0, 0, 0)
      (rgb.1, rgb.2.1, rgb.2.2, alpha)

/-- Specification-side 565-to-888 expansion, written arithmetically from the
claim's words: extract the 5/6/5 fields, left-shift to the top of a byte,
and replicate the high bits into the low bits. -/
def specExpand565 (c : ℕ) : ℕ × ℕ × ℕ :=
  let r5 := c / 2 ^ 11 % 2 ^ 5
  let g6 := c / 2 ^ 5 % 2 ^ 6
  let b5 := c % 2 ^ 5
  (r5 * 8 + r5 / 4, g6 * 4 + g6 / 16, b5 * 8 + b5 / 4)

/-- Specification-side DXT1 palette: `[c0, c1, lerp2/3, lerp1/3]` opaque
when the packed u16 `c0` is numerically greater than `c1`, otherwise
`[c0, c1, avg, transparent black]`. -/
def specDxt1Palette (c0 c1 : ℕ) : List Pixel :=
  let p0 := specExpand565 c0
  let p1 := specExpand565 c1
  if c0 > c1 then
    [(p0.1, p0.2.1, p0.2.2, 255), (p1.1, p1.2.1, p1.2.2, 255),
     ((2 * p0.1 + p1.1) / 3, (2 * p0.2.1 + p1.2.1) / 3, (2 * p0.2.2 + p1.2.2) / 3, 255),
     ((p0.1 + 2 * p1.1) / 3, (p0.2.1 + 2 * p1.2.1) / 3, (p0.2.2 + 2 * p1.2.2) / 3, 255)]
  else
    [(p0.1, p0.2.1, p0.2.2, 255), (p1.1, p1.2.1, p1.2.2, 255),
     ((p0.1 + p1.1) / 2, (p0.2.1 + p1.2.1) / 2, (p0.2.2 + p1.2.2) / 2, 255),
     (0, 0, 0, 0)]

/-- Specification-side alpha palette for DXT5 from the claim's words:
endpoints then six `k/7`-step interpolations when `a0 > a1`, otherwise
endpoints, four `k/5`-step interpolations, then literal 0 and 255. -/
def specDxt5AlphaPalette (a0 a1 : ℕ) : List ℕ :=
  if a0 > a1 then
    [a0, a1,
     (6 * a0 + 1 * a1) / 7, (5 * a0 + 2 * a1) / 7, (4 * a0 + 3 * a1) / 7,
     (3 * a0 + 4 * a1) / 7, (2 * a0 + 5 * a1) / 7, (1 * a0 + 6 * a1) / 7]
  else
    [a0, a1,
     (4 * a0 + 1 * a1) / 5, (3 * a0 + 2 * a1) / 5, (2 * a0 + 3 * a1) / 5,
     (1 * a0 + 4 * a1) / 5, 0, 255]

/-! ### QuatCodec: 48-bit quantized quaternion (`io/import_anm.py`) -/

/-- Quaternion in the `mathutils.Quaternion((w, x, y, z))` constructor
order. -/
structure Quat where
  w : ℝ
  x : ℝ
  y : ℝ
  z : ℝ

/-- Constant `one_div_sqrt2 = 0.70710678118` from `decompress_quat`, as an
exact rational. -/
def one_div_sqrt2 : ℚ := 70710678118 / 100000000000

/-- Constant `sqrt2_div_32767 = 0.00004315969` from `decompress_quat`, as an
exact rational. -/
def sqrt2_div_32767 : ℚ := 4315969 / 100000000000

/-- The 48-bit integer assembled by `decompress_quat` from its 6 payload
bytes: three little-endian u16 reads OR-ed together at bit offsets 0, 16
and 32. -/
def quatBits (bytes : List ℕ) : ℕ :=
  let first := bytes.getD 0 0 ||| (bytes.getD 1 0 <<< 8)
  let second := bytes.getD 2 0 ||| (bytes.getD 3 0 <<< 8)
  let third := bytes.getD 4 0 ||| (bytes.getD 5 0 <<< 8)
  first ||| (second <<< 16) ||| (third <<< 32)

/-- Embedding of `decompress_quat`: dequantize three 15-bit fields,
reconstruct the dropped component, and place it according to the 2-bit
`max_index` tag. -/
noncomputable def decompress_quat (bytes : List ℕ) : Quat :=
  let bits := quatBits bytes
  let max_index := (bits >>> 45) &&& 3
  let a : ℝ := ((bits >>> 30) &&& 32767 : ℕ) * (sqrt2_div_32767 : ℝ) - (one_div_sqrt2 : ℝ)
  let b : ℝ := ((bits >>> 15) &&& 32767 : ℕ) * (sqrt2_div_32767 : ℝ) - (one_div_sqrt2 : ℝ)
  let c : ℝ := (bits &&& 32767 : ℕ) * (sqrt2_div_32767 : ℝ) - (one_div_sqrt2 : ℝ)
  let d : ℝ := Real.sqrt (max 0 (1 - (a * a + b * b + c * c)))
  if max_index = 0 then ⟨c, d, a, b⟩
  else if max_index = 1 then ⟨c, a, d, b⟩
  else if max_index = 2 then ⟨c, a, b, d⟩
  else ⟨d, a, b, c⟩

/-- Component view of a quaternion as positions 0..3 = (x, y, z, w). -/
def quatComponent (q : Quat) : Fin 4 → ℝ
  | 0 => q.x
  | 1 => q.y
  | 2 => q.z
  | 3 => q.w

/-- Specification-side dequantization `value * sqrt2_div_32767 -
one_div_sqrt2` of a 15-bit field. -/
def specDequant (v : ℕ) : ℝ := v * (sqrt2_div_32767 : ℝ) - (one_div_sqrt2 : ℝ)

/-- Specification-side component placement: position `maxIndex` of
(x, y, z, w) receives the reconstructed value `d`, and the three decoded
values fill the remaining positions in natural order skipping `maxIndex`. -/
def specQuatAssign (maxIndex : ℕ) (a b c d : ℝ) : Fin 4 → ℝ := fun i =>
  if i.val = maxIndex then d
  else
    let stored := (List.range 4).filter (· ≠ maxIndex)
    [a, b, c].getD (stored.indexOf i.val) 0

/-! ### TexContainer: DDS-to-TEX uncompressed-mask remap (`dds2tex`) -/

/-- Python exception kinds surfaced by the modelled `dds2tex` fragment. -/
inductive PyErr where
  | formatError : PyErr
  | keyError : PyErr
  | typeError : PyErr
  | indexError : PyErr
deriving DecidableEq, Repr

/-- The four channel bit-masks of an uncompressed 32-bit DDS pixel format,
in the header order R, G, B, A. -/
structure DDSMasks where
  r : ℕ
  g : ℕ
  b : ℕ
  a : ℕ
deriving DecidableEq, Repr

/-- The `mask_to_index` dictionary of `dds2tex`; a missing key raises
`KeyError`, modelled as `none`. -/
def mask_to_index (mask : ℕ) : Option ℕ :=
  if mask = 0x000000ff then some 0
  else if mask = 0x0000ff00 then some 1
  else if mask = 0x00ff0000 then some 2
  else if mask = 0xff000000 then some 3
  else none

/-- Whether the masks are already in the canonical `B=0xff, G=0xff00,
R=0xff0000, A=0xff000000` order; when they are not, `dds2tex` enters its
custom-format remap path. -/
def canonicalMasks (m : DDSMasks) : Prop :=
  m.b = 0x000000ff ∧ m.g = 0x0000ff00 ∧ m.r = 0x00ff0000 ∧ m.a = 0xff000000

instance (m : DDSMasks) : Decidable (canonicalMasks m) :=
  inferInstanceAs (Decidable (m.b = 0x000000ff ∧ m.g = 0x0000ff00 ∧ m.r = 0x00ff0000 ∧
    m.a = 0xff000000))

/-- Resolution of the four `rgba_indices` of `dds2tex` (lines 65-68): each
mask is looked up in `mask_to_index`; a dictionary miss is a `KeyError`. -/
def resolveMaskIndices (m : DDSMasks) : Except PyErr (ℕ × ℕ × ℕ × ℕ) :=
  match mask_to_index m.r, mask_to_index m.g, mask_to_index m.b, mask_to_index m.a with
  | some ri, some gi, some bi, some ai => Except.ok (ri, gi, bi, ai)
  | _, _, _, _ => Except.error PyErr.keyError

/-- Safe Python list indexing: `IndexError` outside the range. -/
def pyIndex (data : List ℕ) (i : ℕ) : Except PyErr ℕ :=
  if h : i < data.length then Except.ok (data.get ⟨i, h⟩) else Except.error PyErr.indexError

/-- One iteration of the remap loop of `dds2tex` (lines 84-90): assemble the
32-bit BGRA pixel from the source bytes and append its 4 little-endian
bytes to the accumulator.  The accumulator starts as `none` (the source
initializes `new_data = None`), and `None + bytes` is a `TypeError`. -/
def remapPixelStep (data : List ℕ) (idx : ℕ × ℕ × ℕ × ℕ) (acc : Option (List ℕ)) (i : ℕ) :
    Except PyErr (Option (List ℕ)) :=
  match pyIndex data (i + idx.2.2.1) with
  | Except.error e => Except.error e
  | Except.ok b =>
    match pyIndex data (i + idx.2.1) with
    | Except.error e => Except.error e
    | Except.ok g =>
      match pyIndex data (i + idx.1) with
      | Except.error e => Except.error e
      | Except.ok r =>
        match pyIndex data (i + idx.2.2.2) with
        | Except.error e => Except.error e
        | Except.ok a =>
          match acc with
          | none => Except.error PyErr.typeError
          | some l => Except.ok (some (l ++ [b, g, r, a]))

/-- The values taken by `range(0, n, 4)`. -/
def range4 (n : ℕ) : List ℕ := (List.range ((n + 3) / 4)).map (4 * ·)

/-- Embedding of the BGRA8 branch of `dds2tex` (lines 59-91): check the bit
count, detect a non-canonical mask layout, resolve the mask-to-index table,
and run the per-pixel remap loop over the pixel data.  Returns the value
of the `dds_data` variable after the fragment: the original data when the
masks are canonical, otherwise the final `new_data` accumulator (which is
`none` when the loop body never ran). -/
def dds2tex_bgra (rgbBitCount : ℕ) (m : DDSMasks) (dds_data : List ℕ) :
    Except PyErr (Option (List ℕ)) :=
  if rgbBitCount ≠ 32 then Except.error PyErr.formatError
  else if canonicalMasks m then Except.ok (some dds_data)
  else
    match resolveMaskIndices m with
    | Except.error e => Except.error e
    | Except.ok idx => (range4 dds_data.length).foldlM (remapPixelStep dds_data idx) none

/-- Specification-side per-pixel remap from the claim's words: pixel bytes
reordered according to the mask-to-channel-index table so that the output
isBGRA8: output byte 0 is the source byte holding B, then G, R, A. -/
def specRemapPixel (data : List ℕ) (bi gi ri ai i : ℕ) : List ℕ :=
  [data.getD (i + bi) 0, data.getD (i + gi) 0, data.getD (i + ri) 0, data.getD (i + ai) 0]

/-! ### SklCodec: joint-name offset resolution (`io/import_skl.py`,
`io/export_skl.py`) -/

/-- Embedding of `read_char_until_zero` starting at byte address `pos`:
bytes up to but excluding the first zero byte (or the end of the
buffer). -/
def read_char_until_zero (buf : List ℕ) (pos : ℕ) : List ℕ :=
  (buf.drop pos).takeWhile (· ≠ 0)

/-- Embedding of the joint-name resolution of `read_skl` (lines 97-106) for
joint number `i` whose name-offset field sits at byte address `fieldPos`:
read the i32 offset, record `return_offset` (the position after the field),
seek to `return_offset - 4 + offset` and read a null-terminated string.
When joint 0 resolves to an empty name the source skips one extra byte and
reads again. -/
def skl_read_joint_name (buf : List ℕ) (i : ℕ) (fieldPos : ℕ) : List ℕ :=
  let off := readI32LE buf fieldPos
  let return_offset := fieldPos + 4
  let target := ((return_offset : ℤ) - 4 + off).toNat
  let name := read_char_until_zero buf target
  if i = 0 ∧ name = [] then read_char_until_zero buf (target + 2) else name

/-- Embedding of the writer side (`write_skl` lines 137-139): the stored
name-offset field is the name's byte address minus the current stream
position, which is the address of the offset field itself. -/
def skl_write_name_offset (nameAddr fieldPos : ℕ) : ℤ :=
  (nameAddr : ℤ) - fieldPos

/-- Claim-side resolution rule: add the stored offset to the stream
position immediately after reading the offset field. -/
def claim_skl_joint_name (buf : List ℕ) (fieldPos : ℕ) : List ℕ :=
  let off := readI32LE buf fieldPos
  read_char_until_zero buf (((fieldPos : ℤ) + 4 + off).toNat)

/-! ### SknCodec: degenerate-triangle filtering and writer limits
(`io/import_skn.py`, `io/export_skn.py`) -/

/-- Embedding of the index-reading loop of `read_skn` (lines 76-81): read
`index_count / 3` triangles of three consecutive u16 indices from the
decoded index stream `raw`, keeping a triangle only when no two of its
indices are equal. -/
def read_skn_indices (raw : List ℕ) (index_count : ℕ) : List ℕ :=
  (List.range (index_count / 3)).foldl
    (fun acc i =>
      let f0 := raw.getD (3 * i) 0
      let f1 := raw.getD (3 * i + 1) 0
      let f2 := raw.getD (3 * i + 2) 0
      if f0 = f1 ∨ f1 = f2 ∨ f2 = f0 then acc else acc ++ [f0, f1, f2])
    []

/-- Specification-side description: the list of triangles of the index
stream, as triples. -/
def sknTriangles (raw : List ℕ) (index_count : ℕ) : List (ℕ × ℕ × ℕ) :=
  (List.range (index_count / 3)).map fun i =>
    (raw.getD (3 * i) 0, raw.getD (3 * i + 1) 0, raw.getD (3 * i + 2) 0)

/-- A triangle is degenerate when two of its three indices are equal. -/
def degenerateTri (t : ℕ × ℕ × ℕ) : Prop := t.1 = t.2.1 ∨ t.2.1 = t.2.2 ∨ t.2.2 = t.1

instance (t : ℕ × ℕ × ℕ) : Decidable (degenerateTri t) :=
  inferInstanceAs (Decidable (t.1 = t.2.1 ∨ t.2.1 = t.2.2 ∨ t.2.2 = t.1))

/-- Per-mesh geometry collected by `write_skn_multi` before validation:
the number of deduplicated vertices and the number of indices produced by
`collect_mesh_data` for one mesh object. -/
structure CollectedMesh where
  vertex_count : ℕ
  index_count : ℕ
deriving DecidableEq, Repr

/-- Embedding of the validation-and-write stage of `write_skn_multi` (lines
111-188): meshes with no indices are skipped, totals are accumulated; then
the function raises when no geometry was collected, when the total vertex
count exceeds 65535, or when more than 32 submeshes were collected, and
otherwise writes the file and returns `(submesh count, total vertex
count)`. -/
def write_skn_multi (meshes : List CollectedMesh) : Except String (ℕ × ℕ) :=
  let submesh_data := meshes.filter (fun m => m.index_count ≠ 0)
  let total_vertex_count := (submesh_data.map (·.vertex_count)).sum
  if submesh_data = [] then Except.error "No geometry found to export"
  else if total_vertex_count > 65535 then Except.error "Too many vertices"
  else if submesh_data.length > 32 then Except.error "Too many submeshes/materials"
  else Except.ok (submesh_data.length, total_vertex_count)

/-! ### AnmCodec: header arithmetic of the five wire formats
(`io/import_anm.py`) -/

/-- The (fps, duration, frameCount) triple a decoded animation carries. -/
structure AnmHeader where
  fps : ℚ
  duration : ℚ
  frame_count : ℤ
deriving DecidableEq, Repr

/-- Compressed `r3d2canm` header fields (lines 77-79): `duration = maxTime
+ 1/fps` and `frame_count = round(duration * fps)`. -/
def canm_header (max_time fps : ℚ) : AnmHeader :=
  let duration := max_time + 1 / fps
  ⟨fps, duration, pyRound (duration * fps)⟩

/-- Uncompressed v5 header fields (lines 141-144): `fps = 1/frameDuration`,
`duration = frameCount * frameDuration`, `frame_count` as stored. -/
def anmd_v5_header (frame_count : ℕ) (frame_duration : ℚ) : AnmHeader :=
  ⟨1 / frame_duration, frame_count * frame_duration, frame_count⟩

/-- Uncompressed v4 header fields (lines 183-186), computed identically to
v5 by a separate code path. -/
def anmd_v4_header (frame_count : ℕ) (frame_duration : ℚ) : AnmHeader :=
  ⟨1 / frame_duration, frame_count * frame_duration, frame_count⟩

/-- Legacy `r3d2anmd` (version ≤ 3) header fields (lines 226-231): an fps
of 0 falls back to 30, `duration = frameCount / fps`. -/
def anmd_legacy_header (frame_count fps_u32 : ℕ) : AnmHeader :=
  let fps : ℚ := if (fps_u32 : ℚ) = 0 then 30 else fps_u32
  ⟨fps, frame_count / fps, frame_count⟩

/-- Legacy no-magic header fields (lines 255-260), computed identically by
a separate code path. -/
def legacy_nomagic_header (frame_count fps_u32 : ℕ) : AnmHeader :=
  let fps : ℚ := if (fps_u32 : ℚ) = 0 then 30 else fps_u32
  ⟨fps, frame_count / fps, frame_count⟩

/-! ### AnmCodec: compressed (`r3d2canm`) frame entries -/

/-- Exact-rational 3-vector. -/
structure Vec3 where
  x : ℚ
  y : ℚ
  z : ℚ
deriving DecidableEq, Repr

/-- Decoded pose sample; each component is present only when some entry set
it. -/
structure ANMPose where
  translation : Option Vec3
  rotation : Option Quat
  scale : Option Vec3

/-- Track of one joint: its hash and a frame-indexed pose dictionary. -/
structure ANMTrack where
  joint_hash : ℕ
  poses : ℤ → Option ANMPose

/-- One 10-byte compressed frame entry as read by `read_anm` (lines
101-103): two u16 fields then 6 payload bytes. -/
structure FrameEntry where
  compressed_time : ℕ
  bits : ℕ
  payload : List ℕ

/-- Byte-level parse of one 10-byte compressed frame entry: u16
`compressedTime`, u16 `bits`, 6 payload bytes. -/
def parse_frame_entry (bytes : List ℕ) : FrameEntry :=
  ⟨readUIntLE bytes 0 2, readUIntLE bytes 2 2, (bytes.drop 4).take 6⟩

/-- Quantization bounds of a compressed animation header. -/
structure CanmQuant where
  translation_min : Vec3
  translation_max : Vec3
  scale_min : Vec3
  scale_max : Vec3

/-- Linear per-axis dequantization of a translation or scale payload over
`[0, 65535]`, as in `read_anm` (lines 124-126 and 130-132). -/
def dequant_vec3 (vmin vmax : Vec3) (v : List ℕ) : Vec3 :=
  ⟨(vmax.x - vmin.x) / 65535 * ((v.getD 0 0 ||| (v.getD 1 0 <<< 8) : ℕ) : ℚ) + vmin.x,
   (vmax.y - vmin.y) / 65535 * ((v.getD 2 0 ||| (v.getD 3 0 <<< 8) : ℕ) : ℚ) + vmin.y,
   (vmax.z - vmin.z) / 65535 * ((v.getD 4 0 ||| (v.getD 5 0 <<< 8) : ℕ) : ℚ) + vmin.z⟩

/-- Embedding of one iteration of the compressed-frame loop of `read_anm`
(lines 101-133): mask the joint index from the low 14 bits, skip
out-of-range joints, resolve the frame index from the compressed time,
fetch or create the pose record at that frame, and set the component
selected by the top 2 type bits. -/
noncomputable def process_entry (joint_count : ℕ) (max_time fps : ℚ) (q : CanmQuant)
    (tracks : List ANMTrack) (e : FrameEntry) : List ANMTrack :=
  let joint_idx := e.bits &&& 16383
  if joint_idx ≥ joint_count then tracks
  else
    let track := tracks.getD joint_idx ⟨0, fun _ => none⟩
    let time := (e.compressed_time : ℚ) / 65535 * max_time
    let frame_id := pyRound (time * fps)
    let pose := (track.poses frame_id).getD ⟨none, none, none⟩
    let transform_type := e.bits >>> 14
    let pose' :=
      if transform_type = 0 then { pose with rotation := some (decompress_quat e.payload) }
      else if transform_type = 1 then
        { pose with translation := some (dequant_vec3 q.translation_min q.translation_max e.payload) }
      else if transform_type = 2 then
        { pose with scale := some (dequant_vec3 q.scale_min q.scale_max e.payload) }
      else pose
    let track' := { track with poses := fun f => if f = frame_id then some pose' else track.poses f }
    tracks.set joint_idx track'

/-! ## Shared arithmetic lemmas -/

theorem lor_shiftLeft_eq (x y k : ℕ) (hx : x < 2 ^ k) : x ||| (y <<< k) = x + 2 ^ k * y := by
  rw [Nat.shiftLeft_eq, Nat.lor_comm, mul_comm y (2 ^ k), ← Nat.mul_add_lt_is_or hx y,
    Nat.add_comm]

theorem and_3_eq_mod (x : ℕ) : x &&& 3 = x % 4 := by
  have h := Nat.and_pow_two_sub_one_eq_mod x 2
  norm_num at h
  exact h

theorem and_7_eq_mod (x : ℕ) : x &&& 7 = x % 8 := by
  have h := Nat.and_pow_two_sub_one_eq_mod x 3
  norm_num at h
  exact h

theorem and_32767_eq_mod (x : ℕ) : x &&& 32767 = x % 2 ^ 15 := by
  have h := Nat.and_pow_two_sub_one_eq_mod x 15
  norm_num at h
  exact h

theorem and_16383_eq_mod (x : ℕ) : x &&& 16383 = x % 16384 := by
  have h := Nat.and_pow_two_sub_one_eq_mod x 14
  norm_num at h
  exact h

theorem pyRound_intCast (n : ℤ) : pyRound (n : ℚ) = n := by
  unfold pyRound
  norm_num [Int.floor_intCast]

theorem pyRound_natCast (n : ℕ) : pyRound (n : ℚ) = n := by
  have h := pyRound_intCast (n : ℤ)
  push_cast at h
  exact h

/-! ## C10: total DXT block decoding on truncated input -/

/-- C10: the DXT block decoders are total on truncated input — every byte
string shorter than 8 bytes decodes through `decompress_dxt1_block` to
exactly 16 transparent-black pixels, and every byte string shorter than 16
bytes decodes through `decompress_dxt5_block` to exactly 16
transparent-black pixels; neither raises an error. -/
theorem c10_truncated_blocks_are_transparent :
    (∀ data : List ℕ, data.length < 8 →
      decompress_dxt1_block data = List.replicate 16 (0, 0, 0, 0)) ∧
    (∀ data : List ℕ, data.length < 16 →
      decompress_dxt5_block data = List.replicate 16 (0, 0, 0, 0)) := by
  constructor
  · intro data h
    unfold decompress_dxt1_block
    rw [if_pos h]
  · intro data h
    unfold decompress_dxt5_block
    rw [if_pos h]

/-- Witness for C10 at the empty byte string. -/
theorem c10_witness :
    decompress_dxt1_block [] = List.replicate 16 (0, 0, 0, 0) ∧
    decompress_dxt5_block [] = List.replicate 16 (0, 0, 0, 0) :=
  ⟨c10_truncated_blocks_are_transparent.1 [] (by decide),
   c10_truncated_blocks_are_transparent.2 [] (by decide)⟩

/-! ## C4: DXT5 alpha palette -/

/-- C4: the DXT5 alpha palette has 8 entries — the two endpoints followed
by six `k/7`-step interpolations when `a0 > a1`, otherwise the endpoints,
four `k/5`-step interpolations, then literal 0 and literal 255; and for
`a0 = 255, a1 = 0` index 0 decodes to 255, index 1 decodes to 0, and the
six interpolated entries are monotonically decreasing. -/
theorem c4_dxt5_alpha_palette :
    (∀ a0 a1 : ℕ, dxt5AlphaPalette a0 a1 = specDxt5AlphaPalette a0 a1) ∧
    (dxt5AlphaPalette 255 0).getD 0 0 = 255 ∧
    (dxt5AlphaPalette 255 0).getD 1 0 = 0 ∧
    List.Pairwise (· > ·) ((dxt5AlphaPalette 255 0).drop 2) := by
  refine ⟨fun a0 a1 => ?_, by decide, by decide, by decide⟩
  by_cases h : a0 > a1 <;>
    simp [dxt5AlphaPalette, specDxt5AlphaPalette, h, List.range']

/-! ## C8: SKN writer-side limits -/

/-- C8 counterexample: an empty mesh list respects both limits (0 vertices,
0 submeshes) yet `write_skn_multi` raises instead of writing, so the claim
"it proceeds to write the file whenever both limits are respected" fails as
stated. -/
theorem c8_counterexample :
    write_skn_multi [] = Except.error "No geometry found to export" ∧
    (((List.filter (fun m => m.index_count ≠ 0) ([] : List CollectedMesh)).map
        (·.vertex_count)).sum ≤ 65535 ∧
      (List.filter (fun m => m.index_count ≠ 0) ([] : List CollectedMesh)).length ≤ 32) :=
  ⟨rfl, by decide⟩

/-- C8 (amended): `write_skn_multi` raises whenever the total vertex count
of the collected submeshes exceeds 65535 or the collected submesh count
exceeds 32; given at least one collected submesh and both limits respected
it writes the file and returns the counts; and a call totalling 65536
vertices raises the vertex-limit error. -/
theorem c8_write_skn_limits :
    (∀ meshes : List CollectedMesh,
      ((meshes.filter (fun m => m.index_count ≠ 0)).map (·.vertex_count)).sum > 65535 ∨
        (meshes.filter (fun m => m.index_count ≠ 0)).length > 32 →
      ∃ msg, write_skn_multi meshes = Except.error msg) ∧
    (∀ meshes : List CollectedMesh,
      meshes.filter (fun m => m.index_count ≠ 0) ≠ [] →
      ((meshes.filter (fun m => m.index_count ≠ 0)).map (·.vertex_count)).sum ≤ 65535 →
      (meshes.filter (fun m => m.index_count ≠ 0)).length ≤ 32 →
      write_skn_multi meshes =
        Except.ok ((meshes.filter (fun m => m.index_count ≠ 0)).length,
          ((meshes.filter (fun m => m.index_count ≠ 0)).map (·.vertex_count)).sum)) ∧
    write_skn_multi [⟨65536, 3⟩] = Except.error "Too many vertices" := by
  refine ⟨fun meshes h => ?_, fun meshes h1 h2 h3 => ?_, rfl⟩
  · unfold write_skn_multi
    rcases h with h | h
    · by_cases he : meshes.filter (fun m => m.index_count ≠ 0) = []
      · rw [he] at h; simp at h
      · exact ⟨_, by rw [if_neg he, if_pos h]⟩
    · by_cases he : meshes.filter (fun m => m.index_count ≠ 0) = []
      · rw [he] at h; simp at h
      · by_cases hv : ((meshes.filter (fun m => m.index_count ≠ 0)).map (·.vertex_count)).sum > 65535
        · exact ⟨_, by rw [if_neg he, if_pos hv]⟩
        · exact ⟨_, by rw [if_neg he, if_neg hv, if_pos h]⟩
  · unfold write_skn_multi
    rw [if_neg h1, if_neg (by omega), if_neg (by omega)]

/-- Witness for C8 at a single collected submesh with 1 vertex. -/
theorem c8_witness :
    write_skn_multi [⟨1, 3⟩] = Except.ok (1, 1) ∧
    (∃ msg, write_skn_multi [⟨70000, 3⟩] = Except.error msg) := by
  constructor
  · have h := c8_write_skn_limits.2.1 [⟨1, 3⟩] (by decide) (by decide) (by decide)
    simpa using h
  · exact c8_write_skn_limits.1 [⟨70000, 3⟩] (by decide)

/-! ## C9: frameCount = round(duration * fps) across all five formats -/

/-- C9: every successfully decoded animation satisfies `frameCount =
round(duration * fps)`, in each of the five wire formats (compressed, v5,
v4, legacy `r3d2anmd`, legacy no-magic).  The v5/v4 formats require the
stored frame duration to be nonzero (a zero value would raise a
division-by-zero error in the source, so no model is produced). -/
theorem c9_frame_count_round :
    (∀ max_time fps : ℚ,
      (canm_header max_time fps).frame_count =
        pyRound ((canm_header max_time fps).duration * (canm_header max_time fps).fps)) ∧
    (∀ (fc : ℕ) (fd : ℚ), fd ≠ 0 →
      (anmd_v5_header fc fd).frame_count =
        pyRound ((anmd_v5_header fc fd).duration * (anmd_v5_header fc fd).fps)) ∧
    (∀ (fc : ℕ) (fd : ℚ), fd ≠ 0 →
      (anmd_v4_header fc fd).frame_count =
        pyRound ((anmd_v4_header fc fd).duration * (anmd_v4_header fc fd).fps)) ∧
    (∀ fc fps_u32 : ℕ,
      (anmd_legacy_header fc fps_u32).frame_count =
        pyRound ((anmd_legacy_header fc fps_u32).duration * (anmd_legacy_header fc fps_u32).fps)) ∧
    (∀ fc fps_u32 : ℕ,
      (legacy_nomagic_header fc fps_u32).frame_count =
        pyRound ((legacy_nomagic_header fc fps_u32).duration * (legacy_nomagic_header fc fps_u32).fps)) := by
  have hdiv : ∀ (fc : ℕ) (fps : ℚ), fps ≠ 0 → ((fc : ℚ) / fps) * fps = (fc : ℚ) := by
    intro fc fps h
    field_simp
  refine ⟨fun mt fps => rfl, fun fc fd h => ?_, fun fc fd h => ?_,
    fun fc fps_u32 => ?_, fun fc fps_u32 => ?_⟩
  · show (fc : ℤ) = pyRound ((fc : ℚ) * fd * (1 / fd))
    rw [one_div, mul_assoc, mul_inv_cancel₀ h, mul_one, pyRound_natCast]
  · show (fc : ℤ) = pyRound ((fc : ℚ) * fd * (1 / fd))
    rw [one_div, mul_assoc, mul_inv_cancel₀ h, mul_one, pyRound_natCast]
  · have hne : (if (fps_u32 : ℚ) = 0 then (30 : ℚ) else (fps_u32 : ℚ)) ≠ 0 := by
      by_cases h0 : (fps_u32 : ℚ) = 0
      · rw [if_pos h0]; norm_num
      · rw [if_neg h0]; exact h0
    show (fc : ℤ) = pyRound ((fc : ℚ) /
      (if (fps_u32 : ℚ) = 0 then (30 : ℚ) else (fps_u32 : ℚ)) *
      (if (fps_u32 : ℚ) = 0 then (30 : ℚ) else (fps_u32 : ℚ)))
    rw [hdiv fc _ hne, pyRound_natCast]
  · have hne : (if (fps_u32 : ℚ) = 0 then (30 : ℚ) else (fps_u32 : ℚ)) ≠ 0 := by
      by_cases h0 : (fps_u32 : ℚ) = 0
      · rw [if_pos h0]; norm_num
      · rw [if_neg h0]; exact h0
    show (fc : ℤ) = pyRound ((fc : ℚ) /
      (if (fps_u32 : ℚ) = 0 then (30 : ℚ) else (fps_u32 : ℚ)) *
      (if (fps_u32 : ℚ) = 0 then (30 : ℚ) else (fps_u32 : ℚ)))
    rw [hdiv fc _ hne, pyRound_natCast]

/-- Witness for C9, instantiating each of the five formats at concrete
header values. -/
theorem c9_witness :
    (canm_header 1 30).frame_count =
      pyRound ((canm_header 1 30).duration * (canm_header 1 30).fps) ∧
    (anmd_v5_header 3 (1 / 30)).frame_count =
      pyRound ((anmd_v5_header 3 (1 / 30)).duration * (anmd_v5_header 3 (1 / 30)).fps) ∧
    (anmd_v4_header 3 (1 / 30)).frame_count =
      pyRound ((anmd_v4_header 3 (1 / 30)).duration * (anmd_v4_header 3 (1 / 30)).fps) ∧
    (anmd_legacy_header 3 0).frame_count =
      pyRound ((anmd_legacy_header 3 0).duration * (anmd_legacy_header 3 0).fps) ∧
    (legacy_nomagic_header 3 25).frame_count =
      pyRound ((legacy_nomagic_header 3 25).duration * (legacy_nomagic_header 3 25).fps) :=
  ⟨c9_frame_count_round.1 1 30,
   c9_frame_count_round.2.1 3 (1 / 30) (by norm_num),
   c9_frame_count_round.2.2.1 3 (1 / 30) (by norm_num),
   c9_frame_count_round.2.2.2.1 3 0,
   c9_frame_count_round.2.2.2.2 3 25⟩

/-! ## C3: DXT1 block decoding -/

theorem lor_mul8_div32 (x : ℕ) (hx : x < 32) : (x * 8) ||| (x * 8 / 32) = x * 8 + x / 4 := by
  have h8 : x * 8 / 32 = x / 4 := by omega
  rw [h8, show x * 8 = 2 ^ 3 * x by ring, ← Nat.mul_add_lt_is_or (by omega : x / 4 < 2 ^ 3) x]

theorem lor_mul4_div64 (x : ℕ) (hx : x < 64) : (x * 4) ||| (x * 4 / 64) = x * 4 + x / 16 := by
  have h4 : x * 4 / 64 = x / 16 := by omega
  rw [h4, show x * 4 = 2 ^ 2 * x by ring, ← Nat.mul_add_lt_is_or (by omega : x / 16 < 2 ^ 2) x]

theorem expand565_eq_spec (c : ℕ) : expand565 c = specExpand565 c := by
  unfold expand565 specExpand565
  simp only [Nat.shiftRight_eq_div_pow, Nat.shiftLeft_eq,
    show (0x1F : ℕ) = 2 ^ 5 - 1 by norm_num, show (0x3F : ℕ) = 2 ^ 6 - 1 by norm_num,
    Nat.and_pow_two_sub_one_eq_mod]
  have hr := lor_mul8_div32 (c / 2 ^ 11 % 2 ^ 5) (Nat.mod_lt _ (by norm_num))
  have hg := lor_mul4_div64 (c / 2 ^ 5 % 2 ^ 6) (Nat.mod_lt _ (by norm_num))
  have hb := lor_mul8_div32 (c % 2 ^ 5) (Nat.mod_lt _ (by norm_num))
  norm_num at hr hg hb ⊢
  exact ⟨hr, hg, hb⟩

theorem dxt1Palette_eq_spec (c0 c1 : ℕ) : dxt1Palette c0 c1 = specDxt1Palette c0 c1 := by
  unfold dxt1Palette specDxt1Palette
  rw [expand565_eq_spec, expand565_eq_spec]
  by_cases h : c0 > c1 <;> simp [h]

/-- C3: an 8-byte DXT1 block decodes by expanding both 565 endpoints to 888
with bit replication, building the palette `[c0, c1, lerp2/3, lerp1/3]`
(opaque) when the packed u16 `c0` exceeds `c1` and `[c0, c1, avg,
transparent black]` otherwise, and assigning each of the 16 pixels in
row-major raster order the palette entry selected by its 2-bit index from
the 32-bit index field. -/
theorem c3_dxt1_block (data : List ℕ) (hlen : data.length = 8) :
    decompress_dxt1_block data =
      (List.range 16).map fun i =>
        (specDxt1Palette (readUIntLE data 0 2) (readUIntLE data 2 2)).getD
          (readUIntLE data 4 4 / 4 ^ i % 4) (0, 0, 0, 0) := by
  unfold decompress_dxt1_block
  rw [if_neg (by omega)]
  refine List.map_congr_left fun idx _ => ?_
  rw [dxt1Palette_eq_spec]
  congr 1
  rw [and_3_eq_mod, Nat.shiftRight_eq_div_pow]
  congr 1
  rw [mul_comm idx 2, pow_mul]
  norm_num

/-- Witness for C3 at the all-zero 8-byte block. -/
theorem c3_witness :
    decompress_dxt1_block [0, 0, 0, 0, 0, 0, 0, 0] =
      (List.range 16).map fun i =>
        (specDxt1Palette (readUIntLE [0, 0, 0, 0, 0, 0, 0, 0] 0 2)
            (readUIntLE [0, 0, 0, 0, 0, 0, 0, 0] 2 2)).getD
          (readUIntLE [0, 0, 0, 0, 0, 0, 0, 0] 4 4 / 4 ^ i % 4) (0, 0, 0, 0) :=
  c3_dxt1_block [0, 0, 0, 0, 0, 0, 0, 0] (by decide)

/-! ## C7: SKN degenerate-triangle filtering -/

theorem skn_fold_filter (ts : List (ℕ × ℕ × ℕ)) (acc : List ℕ) :
    ts.foldl (fun acc t => if degenerateTri t then acc else acc ++ [t.1, t.2.1, t.2.2]) acc =
      acc ++ ((ts.filter fun t => ¬ degenerateTri t).map fun t => [t.1, t.2.1, t.2.2]).flatten := by
  induction ts generalizing acc with
  | nil => simp
  | cons t ts ih =>
    by_cases h : degenerateTri t <;>
      simp [List.foldl_cons, List.filter_cons, h, ih, List.append_assoc]

theorem read_skn_indices_eq_fold (raw : List ℕ) (ic : ℕ) :
    read_skn_indices raw ic =
      (sknTriangles raw ic).foldl
        (fun acc t => if degenerateTri t then acc else acc ++ [t.1, t.2.1, t.2.2]) [] := by
  unfold read_skn_indices sknTriangles
  rw [List.foldl_map]
  rfl

theorem tri_getD_shift (a b c : ℕ) (rest : List ℕ) (i : ℕ) :
    ((a :: b :: c :: rest).getD (3 * (i + 1)) 0,
      (a :: b :: c :: rest).getD (3 * (i + 1) + 1) 0,
      (a :: b :: c :: rest).getD (3 * (i + 1) + 2) 0) =
    (rest.getD (3 * i) 0, rest.getD (3 * i + 1) 0, rest.getD (3 * i + 2) 0) := by
  rw [show 3 * (i + 1) = 3 * i + 1 + 1 + 1 by ring,
    show 3 * i + 1 + 1 + 1 + 1 = (3 * i + 1) + 1 + 1 + 1 by ring,
    show 3 * i + 1 + 1 + 1 + 2 = (3 * i + 2) + 1 + 1 + 1 by ring]
  simp [List.getD_cons_succ]

theorem sknTriangles_cons (a b c : ℕ) (rest : List ℕ) :
    sknTriangles (a :: b :: c :: rest) (a :: b :: c :: rest).length =
      (a, b, c) :: sknTriangles rest rest.length := by
  unfold sknTriangles
  have hlen : (a :: b :: c :: rest).length / 3 = rest.length / 3 + 1 := by
    simp only [List.length_cons]
    omega
  rw [hlen, List.range_succ_eq_map, List.map_cons, List.map_map]
  refine congrArg₂ _ rfl ?_
  refine List.map_congr_left fun i _ => ?_
  exact tri_getD_shift a b c rest i

theorem skn_flatten_triples (n : ℕ) (raw : List ℕ) (h : raw.length = 3 * n) :
    ((sknTriangles raw raw.length).map fun t => [t.1, t.2.1, t.2.2]).flatten = raw := by
  induction n generalizing raw with
  | zero =>
    have h0 : raw.length = 0 := by omega
    rw [List.length_eq_zero.mp h0]
    simp [sknTriangles]
  | succ n ih =>
    match raw, h with
    | a :: b :: c :: rest, h =>
      have hr : rest.length = 3 * n := by
        simp only [List.length_cons] at h
        omega
      rw [sknTriangles_cons, List.map_cons, List.flatten_cons, ih rest hr]
      rfl

/-- C7: when reading a SKN mesh, every triangle (group of three consecutive
u16 indices) with two equal indices is dropped from the decoded index list;
a file whose single triangle is `(0, 0, 1)` decodes to an empty index list;
and a file with no degenerate triangles decodes to exactly its stored
indices. -/
theorem c7_skn_degenerate_drop :
    (∀ (raw : List ℕ) (ic : ℕ),
      read_skn_indices raw ic =
        (((sknTriangles raw ic).filter fun t => ¬ degenerateTri t).map
          fun t => [t.1, t.2.1, t.2.2]).flatten) ∧
    read_skn_indices [0, 0, 1] 3 = [] ∧
    (∀ raw : List ℕ, raw.length % 3 = 0 →
      (∀ t ∈ sknTriangles raw raw.length, ¬ degenerateTri t) →
      read_skn_indices raw raw.length = raw) := by
  have key : ∀ (raw : List ℕ) (ic : ℕ),
      read_skn_indices raw ic =
        (((sknTriangles raw ic).filter fun t => ¬ degenerateTri t).map
          fun t => [t.1, t.2.1, t.2.2]).flatten := by
    intro raw ic
    rw [read_skn_indices_eq_fold, skn_fold_filter]
    rfl
  refine ⟨key, by decide, fun raw h3 hnd => ?_⟩
  rw [key]
  have hf : ((sknTriangles raw raw.length).filter fun t => ¬ degenerateTri t) =
      sknTriangles raw raw.length := by
    rw [List.filter_eq_self]
    intro t ht
    simpa using hnd t ht
  rw [hf, skn_flatten_triples (raw.length / 3) raw (by omega)]

/-- Witness for C7 at a 2-triangle index stream whose triangles are not
degenerate. -/
theorem c7_witness :
    read_skn_indices [0, 1, 2, 2, 1, 3] [0, 1, 2, 2, 1, 3].length = [0, 1, 2, 2, 1, 3] :=
  c7_skn_degenerate_drop.2.2 [0, 1, 2, 2, 1, 3] (by decide) (by decide)

/-! ## C6: SKL joint-name offset resolution -/

/-- C6 counterexample: a buffer whose offset field (value 8) sits at
address 0 and which carries the string "A" at address 8 and the string "B"
at address 12.  The reader resolves the name relative to the offset field's
own position and reads "A"; the claim's rule (relative to the position
after the field) would read "B", so the claim fails as stated. -/
theorem c6_counterexample :
    skl_read_joint_name [8, 0, 0, 0, 1, 1, 1, 1, 65, 0, 0, 0, 66, 0] 1 0 = [65] ∧
    claim_skl_joint_name [8, 0, 0, 0, 1, 1, 1, 1, 65, 0, 0, 0, 66, 0] 0 = [66] ∧
    skl_read_joint_name [8, 0, 0, 0, 1, 1, 1, 1, 65, 0, 0, 0, 66, 0] 1 0 ≠
      claim_skl_joint_name [8, 0, 0, 0, 1, 1, 1, 1, 65, 0, 0, 0, 66, 0] 0 := by
  decide

/-- C6 (amended): the joint name is located at the address obtained by
adding the stored i32 name offset to the position of the offset field
itself (the stream position immediately after reading the field, minus 4),
not the record start; and the writer stores `nameAddr - fieldPos`, so the
reader's resolution rule reaches exactly the name the writer wrote.  The
hypothesis rules out the reader's special repair path for a first joint
resolving to an empty name. -/
theorem c6_skl_name_offset (buf : List ℕ) (i fieldPos nameAddr : ℕ)
    (hoff : readI32LE buf fieldPos = (nameAddr : ℤ) - fieldPos)
    (hhack : ¬(i = 0 ∧ read_char_until_zero buf nameAddr = [])) :
    skl_read_joint_name buf i fieldPos = read_char_until_zero buf nameAddr ∧
    skl_write_name_offset nameAddr fieldPos = (nameAddr : ℤ) - fieldPos ∧
    (((fieldPos : ℤ) + 4) - 4 + skl_write_name_offset nameAddr fieldPos).toNat = nameAddr := by
  refine ⟨?_, rfl, by unfold skl_write_name_offset; omega⟩
  simp only [skl_read_joint_name]
  rw [hoff]
  have ht : ((((fieldPos + 4 : ℕ) : ℤ)) - 4 + ((nameAddr : ℤ) - fieldPos)).toNat = nameAddr := by
    push_cast
    omega
  rw [ht, if_neg hhack]

/-- Witness for C6 on the counterexample buffer: the writer-style offset 8
stored at field address 0 resolves to the name at address 8. -/
theorem c6_witness :
    skl_read_joint_name [8, 0, 0, 0, 1, 1, 1, 1, 65, 0, 0, 0, 66, 0] 1 0 =
      read_char_until_zero [8, 0, 0, 0, 1, 1, 1, 1, 65, 0, 0, 0, 66, 0] 8 ∧
    skl_write_name_offset 8 0 = (8 : ℤ) - 0 ∧
    (((0 : ℤ) + 4) - 4 + skl_write_name_offset 8 0).toNat = 8 :=
  c6_skl_name_offset [8, 0, 0, 0, 1, 1, 1, 1, 65, 0, 0, 0, 66, 0] 1 0 8 (by decide) (by decide)

/-! ## C5: dds2tex custom-mask remap -/

theorem mask_to_index_lt (mask v : ℕ) (h : mask_to_index mask = some v) : v < 4 := by
  unfold mask_to_index at h
  split_ifs at h <;> simp_all <;> omega

theorem range4_pos (n : ℕ) (h : 1 ≤ n) : range4 n = 0 :: (List.range ((n + 3) / 4 - 1)).map (fun i => 4 * (i + 1)) := by
  unfold range4
  rw [show (n + 3) / 4 = ((n + 3) / 4 - 1) + 1 by omega, List.range_succ_eq_map]
  simp [Function.comp]

/-- C5: the custom-mask remap path of `dds2tex` can never produce output.
The accumulator is initialized to `None`, so the first pixel of any
non-empty payload raises a `TypeError` when the packed bytes are appended;
on the concrete permuted-mask input `R=0xff, G=0xff00, B=0xff0000,
A=0xff000000` with one BGRA pixel the conversion fails, where the claim
promises valid BGRA8 output. -/
theorem c5_dds2tex_remap_crash :
    dds2tex_bgra 32 ⟨0x000000ff, 0x0000ff00, 0x00ff0000, 0xff000000⟩ [1, 2, 3, 4] =
      Except.error PyErr.typeError ∧
    (∀ (m : DDSMasks) (data : List ℕ) (ri gi bi ai : ℕ),
      ¬ canonicalMasks m →
      mask_to_index m.r = some ri → mask_to_index m.g = some gi →
      mask_to_index m.b = some bi → mask_to_index m.a = some ai →
      4 ≤ data.length →
      dds2tex_bgra 32 m data = Except.error PyErr.typeError) := by
  constructor
  · rfl
  · intro m data ri gi bi ai hnc hri hgi hbi hai hlen
    unfold dds2tex_bgra
    rw [if_neg (by norm_num), if_neg hnc]
    have hres : resolveMaskIndices m = Except.ok (ri, gi, bi, ai) := by
      unfold resolveMaskIndices
      rw [hri, hgi, hbi, hai]
    rw [hres]
    show List.foldlM (remapPixelStep data (ri, gi, bi, ai)) none (range4 data.length) =
      Except.error PyErr.typeError
    have hstep : remapPixelStep data (ri, gi, bi, ai) none 0 = Except.error PyErr.typeError := by
      unfold remapPixelStep
      have hb : pyIndex data (0 + bi) =
          Except.ok (data.get ⟨0 + bi, by have := mask_to_index_lt m.b bi hbi; omega⟩) := by
        unfold pyIndex
        rw [dif_pos]
      have hg : pyIndex data (0 + gi) =
          Except.ok (data.get ⟨0 + gi, by have := mask_to_index_lt m.g gi hgi; omega⟩) := by
        unfold pyIndex
        rw [dif_pos]
      have hr : pyIndex data (0 + ri) =
          Except.ok (data.get ⟨0 + ri, by have := mask_to_index_lt m.r ri hri; omega⟩) := by
        unfold pyIndex
        rw [dif_pos]
      have ha : pyIndex data (0 + ai) =
          Except.ok (data.get ⟨0 + ai, by have := mask_to_index_lt m.a ai hai; omega⟩) := by
        unfold pyIndex
        rw [dif_pos]
      rw [hb, hg, hr, ha]
    rw [range4_pos data.length (by omega), List.foldlM_cons, hstep]
    rfl

/-- Witness for C5's general statement at the concrete permuted-mask
input. -/
theorem c5_witness :
    dds2tex_bgra 32 ⟨0x000000ff, 0x0000ff00, 0x00ff0000, 0xff000000⟩ [9, 9, 9, 9, 9, 9, 9, 9] =
      Except.error PyErr.typeError :=
  c5_dds2tex_remap_crash.2 ⟨0x000000ff, 0x0000ff00, 0x00ff0000, 0xff000000⟩
    [9, 9, 9, 9, 9, 9, 9, 9] 0 1 2 3 (by decide) (by decide) (by decide) (by decide) (by decide)
    (by decide)

/-! ## C1: 48-bit quantized quaternion decoding -/

theorem quatBits_eq_leBytes (b0 b1 b2 b3 b4 b5 : ℕ)
    (h0 : b0 < 256) (h1 : b1 < 256) (h2 : b2 < 256) (h3 : b3 < 256)
    (h4 : b4 < 256) (h5 : b5 < 256) :
    quatBits [b0, b1, b2, b3, b4, b5] = leBytes [b0, b1, b2, b3, b4, b5] := by
  show (b0 ||| (b1 <<< 8)) ||| ((b2 ||| (b3 <<< 8)) <<< 16) ||| ((b4 ||| (b5 <<< 8)) <<< 32) = _
  rw [lor_shiftLeft_eq b0 b1 8 h0, lor_shiftLeft_eq b2 b3 8 h2, lor_shiftLeft_eq b4 b5 8 h4,
    lor_shiftLeft_eq (b0 + 2 ^ 8 * b1) (b2 + 2 ^ 8 * b3) 16 (by norm_num; omega),
    lor_shiftLeft_eq _ _ 32 (by norm_num; omega)]
  simp only [leBytes]
  norm_num
  ring

/-- C1: for every 6-byte payload, `decompress_quat` extracts `maxIndex`
from bits 45-46 and three 15-bit fields from bits 30-44, 15-29 and 0-14 of
the little-endian 48-bit integer, dequantizes each field by `value *
sqrt2_div_32767 - one_div_sqrt2` (the source's stored constants for
`sqrt(2)/32767` and `1/sqrt(2)`), reconstructs the dropped component as
`sqrt(max(0, 1 - a² - b² - c²))`, places the reconstruction at component
position `maxIndex` of (x, y, z, w), and fills the remaining positions
with the decoded values in natural order skipping `maxIndex`. -/
theorem c1_decompress_quat (bytes : List ℕ) (hlen : bytes.length = 6)
    (hlt : ∀ b ∈ bytes, b < 256) (i : Fin 4) :
    quatComponent (decompress_quat bytes) i =
      specQuatAssign (leBytes bytes / 2 ^ 45 % 4)
        (specDequant (leBytes bytes / 2 ^ 30 % 2 ^ 15))
        (specDequant (leBytes bytes / 2 ^ 15 % 2 ^ 15))
        (specDequant (leBytes bytes % 2 ^ 15))
        (Real.sqrt (max 0 (1 -
          (specDequant (leBytes bytes / 2 ^ 30 % 2 ^ 15) *
              specDequant (leBytes bytes / 2 ^ 30 % 2 ^ 15) +
            specDequant (leBytes bytes / 2 ^ 15 % 2 ^ 15) *
              specDequant (leBytes bytes / 2 ^ 15 % 2 ^ 15) +
            specDequant (leBytes bytes % 2 ^ 15) *
              specDequant (leBytes bytes % 2 ^ 15))))) i := by
  rcases bytes with _ | ⟨b0, _ | ⟨b1, _ | ⟨b2, _ | ⟨b3, _ | ⟨b4, _ | ⟨b5, _ | ⟨b6, rest⟩⟩⟩⟩⟩⟩⟩ <;>
    simp only [List.length] at hlen <;> try omega
  have h0 : b0 < 256 := hlt _ (by simp)
  have h1 : b1 < 256 := hlt _ (by simp)
  have h2 : b2 < 256 := hlt _ (by simp)
  have h3 : b3 < 256 := hlt _ (by simp)
  have h4 : b4 < 256 := hlt _ (by simp)
  have h5 : b5 < 256 := hlt _ (by simp)
  have hq := quatBits_eq_leBytes b0 b1 b2 b3 b4 b5 h0 h1 h2 h3 h4 h5
  simp only [decompress_quat]
  rw [hq, and_3_eq_mod, and_32767_eq_mod, and_32767_eq_mod, and_32767_eq_mod,
    Nat.shiftRight_eq_div_pow, Nat.shiftRight_eq_div_pow, Nat.shiftRight_eq_div_pow]
  have hmi : leBytes [b0, b1, b2, b3, b4, b5] / 2 ^ 45 % 4 < 4 := Nat.mod_lt _ (by norm_num)
  set mi := leBytes [b0, b1, b2, b3, b4, b5] / 2 ^ 45 % 4 with hmi_def
  interval_cases mi <;> fin_cases i <;> rfl

/-- Witness for C1 at the all-zero payload and component position 1. -/
theorem c1_witness :
    quatComponent (decompress_quat [0, 0, 0, 0, 0, 0]) 1 =
      specQuatAssign (leBytes [0, 0, 0, 0, 0, 0] / 2 ^ 45 % 4)
        (specDequant (leBytes [0, 0, 0, 0, 0, 0] / 2 ^ 30 % 2 ^ 15))
        (specDequant (leBytes [0, 0, 0, 0, 0, 0] / 2 ^ 15 % 2 ^ 15))
        (specDequant (leBytes [0, 0, 0, 0, 0, 0] % 2 ^ 15))
        (Real.sqrt (max 0 (1 -
          (specDequant (leBytes [0, 0, 0, 0, 0, 0] / 2 ^ 30 % 2 ^ 15) *
              specDequant (leBytes [0, 0, 0, 0, 0, 0] / 2 ^ 30 % 2 ^ 15) +
            specDequant (leBytes [0, 0, 0, 0, 0, 0] / 2 ^ 15 % 2 ^ 15) *
              specDequant (leBytes [0, 0, 0, 0, 0, 0] / 2 ^ 15 % 2 ^ 15) +
            specDequant (leBytes [0, 0, 0, 0, 0, 0] % 2 ^ 15) *
              specDequant (leBytes [0, 0, 0, 0, 0, 0] % 2 ^ 15))))) 1 :=
  c1_decompress_quat [0, 0, 0, 0, 0, 0] (by decide) (by decide) 1

/-! ## C2: compressed animation entry decoding and pose merging -/

/-- C2: each 10-byte compressed entry parses as u16 `compressedTime`, u16
`bits` and 6 payload bytes; the low 14 bits of `bits` select the joint and
the top 2 bits the transform type 0/1/2 (rotation/translation/scale); the
entry's frame index is `round((compressedTime/65535) * maxTime * fps)`;
and processing the entry touches only that joint's pose record at that
frame, setting exactly the entry's own component while preserving the
record's other components and every other frame and track, so entries for
the same joint at the same frame merge instead of resetting each other. -/
theorem c2_canm_entry_merge (jc : ℕ) (mt fps : ℚ) (q : CanmQuant)
    (tracks : List ANMTrack) (e : FrameEntry) (hlen : tracks.length = jc)
    (hj : e.bits % 16384 < jc) (htt : e.bits / 16384 < 3) :
    (∀ bs : List ℕ, parse_frame_entry bs =
      ⟨bs.getD 0 0 + 256 * bs.getD 1 0, bs.getD 2 0 + 256 * bs.getD 3 0,
        (bs.drop 4).take 6⟩) ∧
    (process_entry jc mt fps q tracks e).length = tracks.length ∧
    (∀ j' : ℕ, j' ≠ e.bits % 16384 →
      (process_entry jc mt fps q tracks e).getD j' ⟨0, fun _ => none⟩ =
        tracks.getD j' ⟨0, fun _ => none⟩) ∧
    ((process_entry jc mt fps q tracks e).getD (e.bits % 16384)
        ⟨0, fun _ => none⟩).joint_hash =
      (tracks.getD (e.bits % 16384) ⟨0, fun _ => none⟩).joint_hash ∧
    (∀ f : ℤ, f ≠ pyRound ((e.compressed_time : ℚ) / 65535 * mt * fps) →
      ((process_entry jc mt fps q tracks e).getD (e.bits % 16384)
          ⟨0, fun _ => none⟩).poses f =
        (tracks.getD (e.bits % 16384) ⟨0, fun _ => none⟩).poses f) ∧
    ((e.bits / 16384 = 0 →
      ((process_entry jc mt fps q tracks e).getD (e.bits % 16384)
          ⟨0, fun _ => none⟩).poses (pyRound ((e.compressed_time : ℚ) / 65535 * mt * fps)) =
        some ⟨(((tracks.getD (e.bits % 16384) ⟨0, fun _ => none⟩).poses
            (pyRound ((e.compressed_time : ℚ) / 65535 * mt * fps))).getD
            ⟨none, none, none⟩).translation,
          some (decompress_quat e.payload),
          (((tracks.getD (e.bits % 16384) ⟨0, fun _ => none⟩).poses
            (pyRound ((e.compressed_time : ℚ) / 65535 * mt * fps))).getD
            ⟨none, none, none⟩).scale⟩) ∧
    (e.bits / 16384 = 1 →
      ((process_entry jc mt fps q tracks e).getD (e.bits % 16384)
          ⟨0, fun _ => none⟩).poses (pyRound ((e.compressed_time : ℚ) / 65535 * mt * fps)) =
        some ⟨some (dequant_vec3 q.translation_min q.translation_max e.payload),
          (((tracks.getD (e.bits % 16384) ⟨0, fun _ => none⟩).poses
            (pyRound ((e.compressed_time : ℚ) / 65535 * mt * fps))).getD
            ⟨none, none, none⟩).rotation,
          (((tracks.getD (e.bits % 16384) ⟨0, fun _ => none⟩).poses
            (pyRound ((e.compressed_time : ℚ) / 65535 * mt * fps))).getD
            ⟨none, none, none⟩).scale⟩) ∧
    (e.bits / 16384 = 2 →
      ((process_entry jc mt fps q tracks e).getD (e.bits % 16384)
          ⟨0, fun _ => none⟩).poses (pyRound ((e.compressed_time : ℚ) / 65535 * mt * fps)) =
        some ⟨(((tracks.getD (e.bits % 16384) ⟨0, fun _ => none⟩).poses
            (pyRound ((e.compressed_time : ℚ) / 65535 * mt * fps))).getD
            ⟨none, none, none⟩).translation,
          (((tracks.getD (e.bits % 16384) ⟨0, fun _ => none⟩).poses
            (pyRound ((e.compressed_time : ℚ) / 65535 * mt * fps))).getD
            ⟨none, none, none⟩).rotation,
          some (dequant_vec3 q.scale_min q.scale_max e.payload)⟩)) := by
  have hjlen : e.bits % 16384 < tracks.length := by omega
  have hset : process_entry jc mt fps q tracks e =
      tracks.set (e.bits % 16384)
        { tracks.getD (e.bits % 16384) ⟨0, fun _ => none⟩ with
          poses := fun f =>
            if f = pyRound ((e.compressed_time : ℚ) / 65535 * mt * fps) then
              some
                (if e.bits / 16384 = 0 then
                  { (((tracks.getD (e.bits % 16384) ⟨0, fun _ => none⟩).poses
                      (pyRound ((e.compressed_time : ℚ) / 65535 * mt * fps))).getD
                      ⟨none, none, none⟩) with
                    rotation := some (decompress_quat e.payload) }
                else if e.bits / 16384 = 1 then
                  { (((tracks.getD (e.bits % 16384) ⟨0, fun _ => none⟩).poses
                      (pyRound ((e.compressed_time : ℚ) / 65535 * mt * fps))).getD
                      ⟨none, none, none⟩) with
                    translation :=
                      some (dequant_vec3 q.translation_min q.translation_max e.payload) }
                else if e.bits / 16384 = 2 then
                  { (((tracks.getD (e.bits % 16384) ⟨0, fun _ => none⟩).poses
                      (pyRound ((e.compressed_time : ℚ) / 65535 * mt * fps))).getD
                      ⟨none, none, none⟩) with
                    scale := some (dequant_vec3 q.scale_min q.scale_max e.payload) }
                else
                  ((tracks.getD (e.bits % 16384) ⟨0, fun _ => none⟩).poses
                    (pyRound ((e.compressed_time : ℚ) / 65535 * mt * fps))).getD
                    ⟨none, none, none⟩)
            else (tracks.getD (e.bits % 16384) ⟨0, fun _ => none⟩).poses f } := by
    simp only [process_entry]
    rw [and_16383_eq_mod, if_neg (by omega),
      show e.bits >>> 14 = e.bits / 16384 by rw [Nat.shiftRight_eq_div_pow]]
  have hgetD_set_self : ∀ (t' : ANMTrack),
      (tracks.set (e.bits % 16384) t').getD (e.bits % 16384) ⟨0, fun _ => none⟩ = t' := by
    intro t'
    rw [List.getD_eq_getElem?_getD, List.getElem?_set_self hjlen]
    rfl
  refine ⟨fun bs => ?_, ?_, fun j' hj' => ?_, ?_, fun f hf => ?_, ?_, ?_, ?_⟩
  · unfold parse_frame_entry readUIntLE
    rcases bs with _ | ⟨x0, _ | ⟨x1, _ | ⟨x2, _ | ⟨x3, bs⟩⟩⟩⟩ <;>
      simp [leBytes]
  · rw [hset, List.length_set]
  · rw [hset, List.getD_eq_getElem?_getD, List.getElem?_set_ne (fun h => hj' h.symm),
      List.getD_eq_getElem?_getD]
  · rw [hset, hgetD_set_self]
  · rw [hset, hgetD_set_self]
    exact if_neg hf
  · intro h0
    rw [hset, hgetD_set_self]
    simp only [if_pos rfl, h0]
    rfl
  · intro h1
    rw [hset, hgetD_set_self]
    simp only [if_pos rfl, h1]
    rfl
  · intro h2
    rw [hset, hgetD_set_self]
    simp only [if_pos rfl, h2]
    rfl

/-- Witness for C2: a one-joint track list and a translation entry
(`bits = 16384`, type 1, joint 0) at compressed time 0; the entry creates
the pose at frame 0 with only its translation set. -/
theorem c2_witness :
    (process_entry 1 1 30 ⟨⟨0, 0, 0⟩, ⟨0, 0, 0⟩, ⟨0, 0, 0⟩, ⟨0, 0, 0⟩⟩
        [⟨7, fun _ => none⟩] ⟨0, 16384, [0, 0, 0, 0, 0, 0]⟩).length =
      [(⟨7, fun _ => none⟩ : ANMTrack)].length ∧
    ((process_entry 1 1 30 ⟨⟨0, 0, 0⟩, ⟨0, 0, 0⟩, ⟨0, 0, 0⟩, ⟨0, 0, 0⟩⟩
        [⟨7, fun _ => none⟩] ⟨0, 16384, [0, 0, 0, 0, 0, 0]⟩).getD
        ((⟨0, 16384, [0, 0, 0, 0, 0, 0]⟩ : FrameEntry).bits % 16384)
        ⟨0, fun _ => none⟩).poses
      (pyRound (((⟨0, 16384, [0, 0, 0, 0, 0, 0]⟩ : FrameEntry).compressed_time : ℚ) /
        65535 * 1 * 30)) =
      some ⟨some (dequant_vec3 ⟨0, 0, 0⟩ ⟨0, 0, 0⟩
          (⟨0, 16384, [0, 0, 0, 0, 0, 0]⟩ : FrameEntry).payload),
        ((([(⟨7, fun _ => none⟩ : ANMTrack)].getD
            ((⟨0, 16384, [0, 0, 0, 0, 0, 0]⟩ : FrameEntry).bits % 16384)
            ⟨0, fun _ => none⟩).poses
          (pyRound (((⟨0, 16384, [0, 0, 0, 0, 0, 0]⟩ : FrameEntry).compressed_time : ℚ) /
            65535 * 1 * 30))).getD ⟨none, none, none⟩).rotation,
        ((([(⟨7, fun _ => none⟩ : ANMTrack)].getD
            ((⟨0, 16384, [0, 0, 0, 0, 0, 0]⟩ : FrameEntry).bits % 16384)
            ⟨0, fun _ => none⟩).poses
          (pyRound (((⟨0, 16384, [0, 0, 0, 0, 0, 0]⟩ : FrameEntry).compressed_time : ℚ) /
            65535 * 1 * 30))).getD ⟨none, none, none⟩).scale⟩ :=
  ⟨(c2_canm_entry_merge 1 1 30 ⟨⟨0, 0, 0⟩, ⟨0, 0, 0⟩, ⟨0, 0, 0⟩, ⟨0, 0, 0⟩⟩
      [⟨7, fun _ => none⟩] ⟨0, 16384, [0, 0, 0, 0, 0, 0]⟩ rfl (by decide) (by decide)).2.1,
   (c2_canm_entry_merge 1 1 30 ⟨⟨0, 0, 0⟩, ⟨0, 0, 0⟩, ⟨0, 0, 0⟩, ⟨0, 0, 0⟩⟩
      [⟨7, fun _ => none⟩] ⟨0, 16384, [0, 0, 0, 0, 0, 0]⟩ rfl (by decide)
      (by decide)).2.2.2.2.2.2.1 (by decide)⟩

end Aventurine
